import Mathlib

/-!
Verification of the todoist-capacities-webhook repository against its
natural-language specification.

The repository is a TypeScript webhook relay: it receives Todoist webhook
POSTs, verifies an HMAC-SHA256 signature over the raw body, formats the
event as markdown and forwards it to the Capacities "save to daily note"
endpoint.  The source files embedded here are:

* `src/lib/types.ts` / `src/lib/todoist.ts` — data types,
  `verifyTodoistSignature`, `getSignatureFromHeaders`, `getPriorityLabel`,
  `parseWebhookPayload`;
* `src/lib/capacities.ts` (the unnamed source part) — `saveToDailyNote`,
  `formatTaskAsMarkdown`, `formatDateTime`;
* `src/api/webhook.ts` — the Node serverless handler (`getRawBody`,
  default `handler`) and a second, Edge-runtime handler variant with its
  own `verifySignature` and `formatTaskMarkdown`.

Host-library behaviour that the TypeScript code relies on (Node `crypto`,
`Buffer` base64 decoding, JavaScript `Date`, `JSON.parse`/`stringify`) is
embedded explicitly, with comments citing the relevant semantics.
-/

set_option maxRecDepth 8000

namespace TCW

/-! ## Machine arithmetic helpers (32-bit words as `Nat` mod 2^32) -/

/-- Truncate to a 32-bit word. -/
def w32 (n : Nat) : Nat := n % 4294967296

/-- Rotate a 32-bit word right by `n` bits. -/
def rotr (n x : Nat) : Nat := w32 ((x >>> n) ||| (x <<< (32 - n)))

/-! ## UTF-8 encoding

Node's `hmac.update(string)` and `TextEncoder.encode` interpret a JS string
as its UTF-8 bytes; strings here are encoded the same way. -/

/-- UTF-8 bytes of one code point. -/
def utf8EncodeChar (c : Char) : List Nat :=
  let n := c.toNat
  if n < 128 then [n]
  else if n < 2048 then [192 + n / 64, 128 + n % 64]
  else if n < 65536 then [224 + n / 4096, 128 + n / 64 % 64, 128 + n % 64]
  else [240 + n / 262144, 128 + n / 4096 % 64, 128 + n / 64 % 64, 128 + n % 64]

/-- UTF-8 bytes of a string. -/
def utf8Encode (s : String) : List Nat :=
  s.data.foldr (fun c acc => utf8EncodeChar c ++ acc) []

/-! ## SHA-256 (FIPS 180-4)

The TypeScript code computes HMAC-SHA256 through Node `crypto` /
WebCrypto; the primitive itself is embedded here from the standard. -/

/-- SHA-256 round constants. -/
def shaK : List Nat :=
  [1116352408, 1899447441, 3049323471, 3921009573, 961987163, 1508970993,
   2453635748, 2870763221, 3624381080, 310598401, 607225278, 1426881987,
   1925078388, 2162078206, 2614888103, 3248222580, 3835390401, 4022224774,
   264347078, 604807628, 770255983, 1249150122, 1555081692, 1996064986,
   2554220882, 2821834349, 2952996808, 3210313671, 3336571891, 3584528711,
   113926993, 338241895, 666307205, 773529912, 1294757372, 1396182291,
   1695183700, 1986661051, 2177026350, 2456956037, 2730485921, 2820302411,
   3259730800, 3345764771, 3516065817, 3600352804, 4094571909, 275423344,
   430227734, 506948616, 659060556, 883997877, 958139571, 1322822218,
   1537002063, 1747873779, 1955562222, 2024104815, 2227730452, 2361852424,
   2428436474, 2756734187, 3204031479, 3329325298]

/-- Working state of the compression function: eight 32-bit words. -/
structure Sha8 where
  a : Nat
  b : Nat
  c : Nat
  d : Nat
  e : Nat
  f : Nat
  g : Nat
  h : Nat

/-- Initial hash value. -/
def shaH0 : Sha8 :=
  ⟨1779033703, 3144134277, 1013904242, 2773480762,
   1359893119, 2600822924, 528734635, 1541459225⟩

/-- Choice function. -/
def shaCh (x y z : Nat) : Nat := (x &&& y) ^^^ ((x ^^^ 4294967295) &&& z)

/-- Majority function. -/
def shaMaj (x y z : Nat) : Nat := (x &&& y) ^^^ (x &&& z) ^^^ (y &&& z)

/-- Big sigma 0. -/
def shaS0 (x : Nat) : Nat := rotr 2 x ^^^ rotr 13 x ^^^ rotr 22 x

/-- Big sigma 1. -/
def shaS1 (x : Nat) : Nat := rotr 6 x ^^^ rotr 11 x ^^^ rotr 25 x

/-- Small sigma 0. -/
def shas0 (x : Nat) : Nat := rotr 7 x ^^^ rotr 18 x ^^^ (x >>> 3)

/-- Small sigma 1. -/
def shas1 (x : Nat) : Nat := rotr 17 x ^^^ rotr 19 x ^^^ (x >>> 10)

/-- Group bytes into big-endian 32-bit words (complete groups of four). -/
def bytesToWords : List Nat → List Nat
  | b0 :: b1 :: b2 :: b3 :: rest =>
      (b0 * 16777216 + b1 * 65536 + b2 * 256 + b3) :: bytesToWords rest
  | _ => []

/-- Extend the message schedule: `w16` is the sliding window of the last
sixteen schedule words (oldest first); produce the next `n` words. -/
def shaExtendAux : Nat → List Nat → List Nat
  | 0, _ => []
  | n + 1, w16 =>
      let w0 := w16.getD 0 0
      let w1 := w16.getD 1 0
      let w9 := w16.getD 9 0
      let w14 := w16.getD 14 0
      let next := w32 (w0 + shas0 w1 + w9 + shas1 w14)
      next :: shaExtendAux n (w16.drop 1 ++ [next])

/-- Full 64-word message schedule of one block (given as its 16 words). -/
def shaSchedule (ws : List Nat) : List Nat := ws ++ shaExtendAux 48 ws

/-- One round of the compression function. -/
def shaRound (st : Sha8) (kw : Nat × Nat) : Sha8 :=
  let t1 := w32 (st.h + shaS1 st.e + shaCh st.e st.f st.g + kw.1 + kw.2)
  let t2 := w32 (shaS0 st.a + shaMaj st.a st.b st.c)
  ⟨w32 (t1 + t2), st.a, st.b, st.c, w32 (st.d + t1), st.e, st.f, st.g⟩

/-- Compress one 64-byte block into the running hash state. -/
def shaCompressBlock (st : Sha8) (block : List Nat) : Sha8 :=
  let ws := shaSchedule (bytesToWords block)
  let r := (shaK.zip ws).foldl (fun s p => shaRound s (p.2, p.1)) st
  ⟨w32 (st.a + r.a), w32 (st.b + r.b), w32 (st.c + r.c), w32 (st.d + r.d),
   w32 (st.e + r.e), w32 (st.f + r.f), w32 (st.g + r.g), w32 (st.h + r.h)⟩

/-- Big-endian bytes of a 64-bit quantity. -/
def bytesBE8 (n : Nat) : List Nat :=
  [n / 72057594037927936 % 256, n / 281474976710656 % 256,
   n / 1099511627776 % 256, n / 4294967296 % 256,
   n / 16777216 % 256, n / 65536 % 256, n / 256 % 256, n % 256]

/-- SHA-256 padding: append `0x80`, zeros to 56 mod 64, then the bit
length as a big-endian 64-bit integer. -/
def shaPad (msg : List Nat) : List Nat :=
  let l := msg.length
  msg ++ [128] ++ List.replicate ((119 - l % 64) % 64) 0 ++ bytesBE8 (8 * l)

/-- Split into 64-byte blocks (input length is a multiple of 64 after
padding; the fuel argument only bounds the recursion). -/
def chunk64F : Nat → List Nat → List (List Nat)
  | _, [] => []
  | 0, _ => []
  | fuel + 1, bs => bs.take 64 :: chunk64F fuel (bs.drop 64)

/-- Big-endian bytes of one 32-bit word. -/
def wordBytes (w : Nat) : List Nat :=
  [w / 16777216 % 256, w / 65536 % 256, w / 256 % 256, w % 256]

/-- The 32 digest bytes of a final hash state. -/
def digestBytes (st : Sha8) : List Nat :=
  wordBytes st.a ++ wordBytes st.b ++ wordBytes st.c ++ wordBytes st.d ++
  wordBytes st.e ++ wordBytes st.f ++ wordBytes st.g ++ wordBytes st.h

/-- SHA-256 of a byte list. -/
def sha256 (msg : List Nat) : List Nat :=
  let padded := shaPad msg
  digestBytes ((chunk64F padded.length padded).foldl shaCompressBlock shaH0)

/-- HMAC-SHA256 (RFC 2104) with a 64-byte block size. -/
def hmacSha256 (key msg : List Nat) : List Nat :=
  let k0 := if key.length > 64 then sha256 key else key
  let kp := k0 ++ List.replicate (64 - k0.length) 0
  sha256 ((kp.map (fun b => b ^^^ 92)) ++
          sha256 ((kp.map (fun b => b ^^^ 54)) ++ msg))

/-- Validation vector: SHA-256 of "abc" (FIPS 180-4 appendix). -/
theorem sha256_abc :
    sha256 (utf8Encode "abc") =
      [186, 120, 22, 191, 143, 1, 207, 234, 65, 65, 64, 222, 93, 174, 34, 35,
       176, 3, 97, 163, 150, 23, 122, 156, 180, 16, 255, 97, 242, 0, 21, 173] := by
  decide

/-- Validation vector: SHA-256 of the empty message. -/
theorem sha256_empty :
    sha256 [] =
      [227, 176, 196, 66, 152, 252, 28, 20, 154, 251, 244, 200, 153, 111, 185,
       36, 39, 174, 65, 228, 100, 155, 147, 76, 164, 149, 153, 27, 120, 82,
       184, 85] := by
  decide

/-- Validation vector: HMAC-SHA256 (RFC 4231 style test). -/
theorem hmac_fox :
    hmacSha256 (utf8Encode "key")
      (utf8Encode "The quick brown fox jumps over the lazy dog") =
      [247, 188, 131, 244, 48, 83, 132, 36, 177, 50, 152, 230, 170, 111, 177,
       67, 239, 77, 89, 161, 73, 70, 23, 89, 151, 71, 157, 188, 45, 26, 60,
       216] := by
  decide

/-! ## Base64

`digest('base64')` / `btoa` produce standard base64 with padding.
`Buffer.from(s, 'base64')` (Node) decodes leniently: it never throws,
accepts both the standard and the URL-safe alphabet, skips characters
outside the alphabet, stops at the first `=` padding character, decodes
complete 4-sextet groups to 3 bytes, a trailing group of 3 sextets to
2 bytes, a trailing group of 2 sextets to 1 byte (discarding leftover
low bits), and drops a trailing lone sextet. -/

/-- Character of one sextet in the standard base64 alphabet. -/
def b64CharOf (n : Nat) : Char :=
  if n < 26 then Char.ofNat (65 + n)
  else if n < 52 then Char.ofNat (97 + (n - 26))
  else if n < 62 then Char.ofNat (48 + (n - 52))
  else if n = 62 then '+'
  else '/'

/-- Encode bytes three at a time into base64 characters, with padding. -/
def b64EncodeTriples : List Nat → List Char
  | [] => []
  | [b0] =>
      [b64CharOf (b0 / 4), b64CharOf (b0 % 4 * 16), '=', '=']
  | [b0, b1] =>
      [b64CharOf (b0 / 4), b64CharOf (b0 % 4 * 16 + b1 / 16),
       b64CharOf (b1 % 16 * 4), '=']
  | b0 :: b1 :: b2 :: rest =>
      b64CharOf (b0 / 4) :: b64CharOf (b0 % 4 * 16 + b1 / 16) ::
      b64CharOf (b1 % 16 * 4 + b2 / 64) :: b64CharOf (b2 % 64) ::
      b64EncodeTriples rest

/-- Standard base64 encoding with padding. -/
def base64Encode (bytes : List Nat) : String := ⟨b64EncodeTriples bytes⟩

/-- Sextet value of a base64 character; `none` for characters outside the
alphabet. Node accepts the URL-safe `-` and `_` as 62 and 63 too. -/
def b64SextetOf (c : Char) : Option Nat :=
  if 'A' ≤ c ∧ c ≤ 'Z' then some (c.toNat - 65)
  else if 'a' ≤ c ∧ c ≤ 'z' then some (c.toNat - 97 + 26)
  else if '0' ≤ c ∧ c ≤ '9' then some (c.toNat - 48 + 52)
  else if c = '+' ∨ c = '-' then some 62
  else if c = '/' ∨ c = '_' then some 63
  else none

/-- The sextets Node's decoder sees: stop at `=`, skip invalid characters. -/
def b64TakeSextets : List Char → List Nat
  | [] => []
  | c :: cs =>
      if c = '=' then []
      else
        match b64SextetOf c with
        | some v => v :: b64TakeSextets cs
        | none => b64TakeSextets cs

/-- Regroup sextets into bytes, Node style (trailing lone sextet dropped,
leftover low bits of a trailing group discarded). -/
def b64Regroup : List Nat → List Nat
  | s0 :: s1 :: s2 :: s3 :: rest =>
      (s0 * 4 + s1 / 16) :: (s1 % 16 * 16 + s2 / 4) :: (s2 % 4 * 64 + s3) ::
      b64Regroup rest
  | [s0, s1] => [s0 * 4 + s1 / 16]
  | [s0, s1, s2] => [s0 * 4 + s1 / 16, s1 % 16 * 16 + s2 / 4]
  | _ => []

/-- Node's `Buffer.from(s, 'base64')`: total, lenient base64 decoding. -/
def nodeBase64Decode (s : String) : List Nat := b64Regroup (b64TakeSextets s.data)

/-- Validation: encoding then decoding "hello" style data round-trips. -/
theorem b64_hello :
    base64Encode (utf8Encode "hello") = "aGVsbG8=" ∧
    nodeBase64Decode "aGVsbG8=" = utf8Encode "hello" := by
  decide

/-! ## JavaScript truthiness helpers -/

/-- Truthiness of a JS `string | undefined` value (`undefined` and the
empty string are falsy). -/
def jsTruthyOptStr : Option String → Bool
  | none => false
  | some s => !s.isEmpty

/-! ## src/lib/todoist.ts -/

/-- Value of a header: a string or an array of strings
(`string | string[] | undefined`, with `undefined` as a missing entry). -/
inductive HeaderVal where
  | hstr (s : String)
  | harr (l : List String)
deriving DecidableEq

/-- Truthiness of a header lookup result: `undefined` and `""` are falsy,
an array (even empty) is truthy. -/
def jsTruthyHV : Option HeaderVal → Bool
  | none => false
  | some (.hstr s) => !s.isEmpty
  | some (.harr _) => true

/-- Exact-key lookup in a header record. -/
def headerLookup (headers : List (String × HeaderVal)) (k : String) :
    Option HeaderVal :=
  (headers.find? (fun p => p.1 = k)).map (·.2)

/-- getSignatureFromHeaders (src/lib/todoist.ts): try the three observed
casings of the signature header with JS `||` (first truthy value, else the
last), then take the first element when the value is an array.  An empty
array yields `undefined` (`headerValue[0]`), embedded as `none`. -/
def getSignatureFromHeaders (headers : List (String × HeaderVal)) :
    Option String :=
  let h1 := headerLookup headers "x-todoist-hmac-sha256"
  let h2 := headerLookup headers "X-Todoist-Hmac-SHA256"
  let h3 := headerLookup headers "X-TODOIST-HMAC-SHA256"
  let headerValue := if jsTruthyHV h1 then h1 else if jsTruthyHV h2 then h2 else h3
  match headerValue with
  | none => none
  | some (.hstr s) => some s
  | some (.harr l) => l.head?

/-- The error Node's `crypto.timingSafeEqual` throws when buffer lengths
differ; with equal lengths it returns content equality (the timing
behaviour itself is not observable in this embedding). -/
def timingSafeEqualE (a b : List Nat) : Except String Bool :=
  if a.length = b.length then .ok (a == b)
  else .error "ERR_CRYPTO_TIMING_SAFE_EQUAL_LENGTH"

/-- Body of the `try` block of verifyTodoistSignature (src/lib/types.ts /
todoist.ts lines 66-92): decode both signatures from base64
(`Buffer.from(_, 'base64')` is total and never throws), return false on a
length mismatch, else compare with `timingSafeEqual`. -/
def verifyTryBlock (rawBody sigStr clientSecret : String) : Except String Bool :=
  let expectedSignature :=
    base64Encode (hmacSha256 (utf8Encode clientSecret) (utf8Encode rawBody))
  let sigBuffer := nodeBase64Decode sigStr
  let expectedBuffer := nodeBase64Decode expectedSignature
  if sigBuffer.length ≠ expectedBuffer.length then .ok false
  else timingSafeEqualE sigBuffer expectedBuffer

/-- verifyTodoistSignature: false when the signature is absent or the
empty string (`!signature`); otherwise run the `try` block, with the
`catch` mapping any thrown error to false. -/
def verifyTodoistSignature (rawBody : String) (signature : Option String)
    (clientSecret : String) : Bool :=
  match signature with
  | none => false
  | some s =>
      if s.isEmpty then false
      else
        match verifyTryBlock rawBody s clientSecret with
        | .ok b => b
        | .error _ => false

/-- getPriorityLabel (src/lib/todoist.ts): record lookup keyed by the
1-4 priority ordinal.  The TS record has no other keys; an out-of-range
ordinal would yield `undefined`, which interpolates as "undefined". -/
def getPriorityLabel (priority : Nat) : String :=
  match priority with
  | 4 => "Urgent"
  | 3 => "High"
  | 2 => "Medium"
  | 1 => "Normal"
  | _ => "undefined"

/-! ## Edge-runtime verifySignature (src/api/webhook.ts, second handler)

WebCrypto HMAC-SHA256 then `btoa` of the digest, compared to the header
value by plain string equality (`expected === signature`). -/

/-- verifySignature of the Edge handler: false for a `null` or empty
header (`!signature`), else exact string comparison with the expected
base64 digest. -/
def edgeVerifySignature (rawBody : String) (signature : Option String)
    (secret : String) : Bool :=
  match signature with
  | none => false
  | some s =>
      if s.isEmpty then false
      else
        base64Encode (hmacSha256 (utf8Encode secret) (utf8Encode rawBody)) == s

/-! ## A model of JSON and of `JSON.parse` / `JSON.stringify`

The handlers call `JSON.parse` on the raw body (throwing on syntax errors)
and `JSON.stringify` on response objects.  Number literals are modelled by
their integer lexemes (the repository's payloads only carry integers; JS
float canonicalization is not modelled). -/

/-- JSON values.  Number literals keep their lexeme. -/
inductive Json where
  | null
  | bool (b : Bool)
  | num (lexeme : String)
  | str (s : String)
  | arr (elems : List Json)
  | obj (fields : List (String × Json))

/-- JSON whitespace. -/
def jsonWs (c : Char) : Bool := c = ' ' || c = '\t' || c = '\n' || c = '\r'

/-- Drop leading JSON whitespace. -/
def skipWs : List Char → List Char
  | [] => []
  | c :: cs => if jsonWs c then skipWs cs else c :: cs

/-- Two-digit lowercase hex of a byte (for string escapes). -/
def hexByte (n : Nat) : String :=
  let d := fun k => Char.ofNat (if k < 10 then 48 + k else 87 + k)
  ⟨[d (n / 16 % 16), d (n % 16)]⟩

/-- Value of a hex digit. -/
def hexVal (c : Char) : Option Nat :=
  if '0' ≤ c ∧ c ≤ '9' then some (c.toNat - 48)
  else if 'a' ≤ c ∧ c ≤ 'f' then some (c.toNat - 87)
  else if 'A' ≤ c ∧ c ≤ 'F' then some (c.toNat - 55)
  else none

/-- Parse the body of a JSON string literal after the opening quote;
returns the decoded string and the rest after the closing quote.
Escapes: the JSON simple escapes and `\uXXXX` (surrogate pairs are not
combined; the repository's payloads contain none). -/
def parseStringBody (cs : List Char) : Option (String × List Char) :=
  match cs with
  | [] => none
  | '"' :: rest => some ("", rest)
  | '\\' :: rest =>
      match rest with
      | '"' :: rs => (parseStringBody rs).map (fun p => ("\"" ++ p.1, p.2))
      | '\\' :: rs => (parseStringBody rs).map (fun p => ("\\" ++ p.1, p.2))
      | '/' :: rs => (parseStringBody rs).map (fun p => ("/" ++ p.1, p.2))
      | 'n' :: rs => (parseStringBody rs).map (fun p => ("\n" ++ p.1, p.2))
      | 't' :: rs => (parseStringBody rs).map (fun p => ("\t" ++ p.1, p.2))
      | 'r' :: rs => (parseStringBody rs).map (fun p => ("\r" ++ p.1, p.2))
      | 'b' :: rs =>
          (parseStringBody rs).map (fun p =>
            (String.singleton (Char.ofNat 8) ++ p.1, p.2))
      | 'f' :: rs =>
          (parseStringBody rs).map (fun p =>
            (String.singleton (Char.ofNat 12) ++ p.1, p.2))
      | 'u' :: h1 :: h2 :: h3 :: h4 :: rs =>
          match hexVal h1, hexVal h2, hexVal h3, hexVal h4 with
          | some a, some b, some c, some d =>
              (parseStringBody rs).map (fun p =>
                (String.singleton (Char.ofNat (a * 4096 + b * 256 + c * 16 + d))
                  ++ p.1, p.2))
          | _, _, _, _ => none
      | _ => none
  | c :: rest =>
      if c.toNat < 32 then none
      else (parseStringBody rest).map (fun p => (String.singleton c ++ p.1, p.2))
termination_by structural cs

/-- Take a maximal run of decimal digits. -/
def takeDigits : List Char → (List Char × List Char)
  | [] => ([], [])
  | c :: cs =>
      if '0' ≤ c ∧ c ≤ '9' then
        let p := takeDigits cs
        (c :: p.1, p.2)
      else ([], c :: cs)

/-- Parse a JSON number lexeme (returned verbatim). -/
def parseNumberLex (cs : List Char) : Option (String × List Char) :=
  let (sign, cs1) := match cs with
    | '-' :: rest => ([('-' : Char)], rest)
    | _ => ([], cs)
  match takeDigits cs1 with
  | ([], _) => none
  | (ds, cs2) =>
      if ds.length > 1 ∧ ds.headD '0' = '0' then none
      else
        let (frac, cs3) := match cs2 with
          | '.' :: rest =>
              match takeDigits rest with
              | ([], _) => ([], cs2)
              | (fs, r) => ('.' :: fs, r)
          | _ => ([], cs2)
        if (match cs2 with | '.' :: _ => frac.isEmpty | _ => false) then none
        else
          let (ex, cs4) := match cs3 with
            | 'e' :: rest => (some ('e', rest), cs3)
            | 'E' :: rest => (some ('E', rest), cs3)
            | _ => (none, cs3)
          match ex with
          | none => some (⟨sign ++ ds ++ frac⟩, cs4)
          | some (ec, rest) =>
              let (esign, r1) := match rest with
                | '+' :: r => (['+'], r)
                | '-' :: r => (['-'], r)
                | _ => ([], rest)
              match takeDigits r1 with
              | ([], _) => none
              | (es, r2) => some (⟨sign ++ ds ++ frac ++ [ec] ++ esign ++ es⟩, r2)

/-- Check for a literal keyword at the head of the input. -/
def takeLit (lit : List Char) (cs : List Char) : Option (List Char) :=
  if cs.take lit.length = lit then some (cs.drop lit.length) else none

mutual

/-- Parse one JSON value (fuel-bounded recursive descent). -/
def parseValueF (fuel : Nat) (input : List Char) : Option (Json × List Char) :=
  match fuel, input with
  | 0, _ => none
  | fuel + 1, cs =>
      match skipWs cs with
      | [] => none
      | c :: rest =>
          if c = '{' then
            match skipWs rest with
            | '}' :: r => some (.obj [], r)
            | r => (parseMembersF fuel r).map (fun p => (Json.obj p.1, p.2))
          else if c = '[' then
            match skipWs rest with
            | ']' :: r => some (.arr [], r)
            | r => (parseItemsF fuel r).map (fun p => (Json.arr p.1, p.2))
          else if c = '"' then
            (parseStringBody rest).map (fun p => (Json.str p.1, p.2))
          else if c = 't' then
            (takeLit ['r', 'u', 'e'] rest).map (fun r => (Json.bool true, r))
          else if c = 'f' then
            (takeLit ['a', 'l', 's', 'e'] rest).map (fun r => (Json.bool false, r))
          else if c = 'n' then
            (takeLit ['u', 'l', 'l'] rest).map (fun r => (Json.null, r))
          else
            (parseNumberLex (c :: rest)).map (fun p => (Json.num p.1, p.2))
termination_by structural fuel

/-- Parse comma-separated array items up to the closing bracket. -/
def parseItemsF (fuel : Nat) (input : List Char) : Option (List Json × List Char) :=
  match fuel, input with
  | 0, _ => none
  | fuel + 1, cs => do
      let (v, rest) ← parseValueF fuel cs
      match skipWs rest with
      | ',' :: r =>
          let (vs, r') ← parseItemsF fuel r
          pure (v :: vs, r')
      | ']' :: r => pure ([v], r)
      | _ => none
termination_by structural fuel

/-- Parse comma-separated object members up to the closing brace. -/
def parseMembersF (fuel : Nat) (input : List Char) :
    Option (List (String × Json) × List Char) :=
  match fuel, input with
  | 0, _ => none
  | fuel + 1, cs => do
      match skipWs cs with
      | '"' :: r1 => do
          let (k, r2) ← parseStringBody r1
          match skipWs r2 with
          | ':' :: r3 => do
              let (v, r4) ← parseValueF fuel r3
              match skipWs r4 with
              | ',' :: r5 =>
                  let (ms, r6) ← parseMembersF fuel r5
                  pure ((k, v) :: ms, r6)
              | '}' :: r5 => pure ([(k, v)], r5)
              | _ => none
          | _ => none
      | _ => none
termination_by structural fuel

end

/-- JSON.parse: parse one value, require only whitespace after it;
`none` models a thrown `SyntaxError`. -/
def jsonParse (s : String) : Option Json :=
  match parseValueF (s.length + 1) s.data with
  | some (v, rest) => if skipWs rest = [] then some v else none
  | none => none

/-- Escape one character for a JSON string literal, as
`JSON.stringify` does. -/
def escapeJsonChar (c : Char) : String :=
  if c = '"' then "\\\""
  else if c = '\\' then "\\\\"
  else if c = '\n' then "\\n"
  else if c = '\r' then "\\r"
  else if c = '\t' then "\\t"
  else if c.toNat = 8 then "\\b"
  else if c.toNat = 12 then "\\f"
  else if c.toNat < 32 then "\\u00" ++ hexByte c.toNat
  else String.singleton c

/-- Body of a JSON string literal. -/
def escapeJsonString (s : String) : String :=
  s.data.foldr (fun c acc => escapeJsonChar c ++ acc) ""

mutual

/-- JSON.stringify (no replacer, no spacing): minimal separators, object
fields in insertion order. -/
def jsonStringify : Json → String
  | .null => "null"
  | .bool true => "true"
  | .bool false => "false"
  | .num lexeme => lexeme
  | .str s => "\"" ++ escapeJsonString s ++ "\""
  | .arr elems => "[" ++ String.intercalate "," (jsonStringifyList elems) ++ "]"
  | .obj fields => "\x7b" ++ String.intercalate "," (jsonStringifyFields fields) ++ "\x7d"
termination_by structural j => j

/-- Serialized forms of the elements of a JSON array. -/
def jsonStringifyList : List Json → List String
  | [] => []
  | j :: js => jsonStringify j :: jsonStringifyList js
termination_by structural l => l

/-- Serialized forms of the members of a JSON object. -/
def jsonStringifyFields : List (String × Json) → List String
  | [] => []
  | (k, v) :: fs =>
      ("\"" ++ escapeJsonString k ++ "\":" ++ jsonStringify v) ::
      jsonStringifyFields fs
termination_by structural l => l

end

/-- Field lookup on a JSON object (first binding wins, as in a JS object
literal read; the payloads here have no duplicate keys). -/
def jsonGet (j : Json) (k : String) : Option Json :=
  match j with
  | .obj fields => (fields.find? (fun p => p.1 = k)).map (·.2)
  | _ => none

/-- Validation: parsing and re-serializing a spaced object normalizes it. -/
theorem jsonParse_spaced :
    jsonParse "\x7b \"a\": 1 \x7d" = some (.obj [("a", .num "1")]) ∧
    jsonStringify (.obj [("a", .num "1")]) = "\x7b\"a\":1\x7d" := by
  constructor
  · rfl
  · rfl

/-! ## JavaScript dates

`new Date(string)` never throws; a string it cannot parse produces an
*invalid* Date (time value NaN).  `Date.prototype.toLocaleString` on an
invalid Date returns the string "Invalid Date" (ECMA-402); it does not
throw either.  Parsing is modelled for the ECMAScript Date Time String
Format (ISO 8601 subset) that Todoist timestamps use; engine-specific
fallback formats are not modelled, and the strings used in theorems below
are unparseable in every engine.  Times without an offset and rendering
use UTC (the deployment runtime's timezone). -/

/-- Digits of a fixed-width decimal field. -/
def readNatDigits (cs : List Char) : Option Nat :=
  if cs ≠ [] ∧ cs.all (fun c => '0' ≤ c ∧ c ≤ '9') then
    some (cs.foldl (fun acc c => acc * 10 + (c.toNat - 48)) 0)
  else none

/-- Days from the civil epoch 1970-01-01 (proleptic Gregorian). -/
def daysFromCivil (y m d : Int) : Int :=
  let y2 := if m ≤ 2 then y - 1 else y
  let era := Int.fdiv y2 400
  let yoe := y2 - era * 400
  let mp := Int.emod (m + 9) 12
  let doy := Int.fdiv (153 * mp + 2) 5 + d - 1
  let doe := yoe * 365 + Int.fdiv yoe 4 - Int.fdiv yoe 100 + doy
  era * 146097 + doe - 719468

/-- Length of a month, accounting for leap years. -/
def daysInMonth (y m : Nat) : Nat :=
  if m = 2 then
    if y % 4 = 0 ∧ (y % 100 ≠ 0 ∨ y % 400 = 0) then 29 else 28
  else if m = 4 ∨ m = 6 ∨ m = 9 ∨ m = 11 then 30
  else 31

/-- Parse the time-of-day and offset tail of an ISO timestamp
("HH:mm", optional ":ss", optional ".sss", optional "Z" or "±HH:mm");
returns milliseconds into the day minus the offset milliseconds. -/
def parseIsoTime (cs : List Char) : Option Int :=
  match cs with
  | h1 :: h2 :: ':' :: m1 :: m2 :: rest => do
      let hh ← readNatDigits [h1, h2]
      let mm ← readNatDigits [m1, m2]
      if hh ≥ 24 ∨ mm ≥ 60 then none
      else
        let tail : Option (Nat × List Char) :=
          match rest with
          | ':' :: s1 :: s2 :: '.' :: f1 :: f2 :: f3 :: r => do
              let ss ← readNatDigits [s1, s2]
              let fff ← readNatDigits [f1, f2, f3]
              if ss ≥ 60 then none else some (ss * 1000 + fff, r)
          | ':' :: s1 :: s2 :: r => do
              let ss ← readNatDigits [s1, s2]
              if ss ≥ 60 then none else some (ss * 1000, r)
          | r => some (0, r)
        let (ssms, rest2) ← tail
        let base : Int := hh * 3600000 + mm * 60000 + ssms
        match rest2 with
        | [] => some base
        | ['Z'] => some base
        | sgn :: o1 :: o2 :: ':' :: o3 :: o4 :: [] => do
            let oh ← readNatDigits [o1, o2]
            let om ← readNatDigits [o3, o4]
            let off : Int := oh * 3600000 + om * 60000
            if sgn = '+' then some (base - off)
            else if sgn = '-' then some (base + off)
            else none
        | _ => none
  | _ => none

/-- The time value (epoch milliseconds) of `new Date(s)`: `none` is an
invalid Date. -/
def jsDateParse (s : String) : Option Int :=
  match s.data with
  | y1 :: y2 :: y3 :: y4 :: '-' :: m1 :: m2 :: '-' :: d1 :: d2 :: rest => do
      let y ← readNatDigits [y1, y2, y3, y4]
      let m ← readNatDigits [m1, m2]
      let d ← readNatDigits [d1, d2]
      if m < 1 ∨ m > 12 ∨ d < 1 ∨ d > daysInMonth y m then none
      else
        let dayMs : Int := daysFromCivil y m d * 86400000
        match rest with
        | [] => some dayMs
        | 'T' :: timePart => do
            let t ← parseIsoTime timePart
            some (dayMs + t)
        | _ => none
  | _ => none

/-- Civil date (year, month, day) of an epoch day number. -/
def civilFromDays (z : Int) : Int × Int × Int :=
  let z2 := z + 719468
  let era := Int.fdiv z2 146097
  let doe := z2 - era * 146097
  let yoe := Int.fdiv (doe - Int.fdiv doe 1460 + Int.fdiv doe 36524 - Int.fdiv doe 146096) 365
  let y := yoe + era * 400
  let doy := doe - (365 * yoe + Int.fdiv yoe 4 - Int.fdiv yoe 100)
  let mp := Int.fdiv (5 * doy + 2) 153
  let d := doy - Int.fdiv (153 * mp + 2) 5 + 1
  let m := mp + (if mp < 10 then 3 else -9)
  (y + (if m ≤ 2 then 1 else 0), m, d)

/-- Short month names, as used by en-US locale output. -/
def monthShortName (m : Int) : String :=
  match m with
  | 1 => "Jan" | 2 => "Feb" | 3 => "Mar" | 4 => "Apr" | 5 => "May"
  | 6 => "Jun" | 7 => "Jul" | 8 => "Aug" | 9 => "Sep" | 10 => "Oct"
  | 11 => "Nov" | 12 => "Dec" | _ => ""

/-- Short weekday names; epoch day 0 (1970-01-01) was a Thursday. -/
def weekdayShortName (days : Int) : String :=
  match Int.emod (days + 4) 7 with
  | 0 => "Sun" | 1 => "Mon" | 2 => "Tue" | 3 => "Wed"
  | 4 => "Thu" | 5 => "Fri" | 6 => "Sat" | _ => ""

/-- Two-digit zero-padded rendering. -/
def pad2 (n : Int) : String :=
  if n < 10 then "0" ++ toString n else toString n

/-- The hour in 12-hour convention and the AM/PM marker. -/
def hour12Of (hh : Int) : Int × String :=
  let mer := if hh < 12 then "AM" else "PM"
  let h12 := Int.emod hh 12
  (if h12 = 0 then 12 else h12, mer)

/-- Rendering of `toLocaleString` with locale en-US and options
weekday short, month short, day numeric, year numeric, hour numeric,
minute 2-digit, hour12, of a valid time value, in UTC:
for example "Wed, Jan 15, 2025, 2:30 PM". -/
def jsLocaleLongEnUS (t : Int) : String :=
  let days := Int.fdiv t 86400000
  let msOfDay := t - days * 86400000
  let hh := Int.fdiv msOfDay 3600000
  let mm := Int.fdiv (Int.emod msOfDay 3600000) 60000
  let c := civilFromDays days
  let h := hour12Of hh
  weekdayShortName days ++ ", " ++ monthShortName c.2.1 ++ " " ++
    toString c.2.2 ++ ", " ++ toString c.1 ++ ", " ++ toString h.1 ++ ":" ++
    pad2 mm ++ " " ++ h.2

/-- Rendering of `toLocaleString()` with no arguments (Node default en-US), in UTC:
for example "1/15/2025, 2:30:00 PM". -/
def jsLocaleDefault (t : Int) : String :=
  let days := Int.fdiv t 86400000
  let msOfDay := t - days * 86400000
  let hh := Int.fdiv msOfDay 3600000
  let mm := Int.fdiv (Int.emod msOfDay 3600000) 60000
  let ss := Int.fdiv (Int.emod msOfDay 60000) 1000
  let c := civilFromDays days
  let h := hour12Of hh
  toString c.2.1 ++ "/" ++ toString c.2.2 ++ "/" ++ toString c.1 ++ ", " ++
    toString h.1 ++ ":" ++ pad2 mm ++ ":" ++ pad2 ss ++ " " ++ h.2

/-- Validation: a concrete ISO timestamp parses to its epoch value and
renders in the locale-aware long form. -/
theorem jsDate_example :
    jsDateParse "2025-01-15T14:30:00Z" = some 1736951400000 ∧
    jsLocaleLongEnUS 1736951400000 = "Wed, Jan 15, 2025, 2:30 PM" := by
  constructor
  · rfl
  · rfl

/-! ## src/lib/types.ts — data model

Only fields the code reads are embedded; `TodoistDue.timezone`,
`string`, `lang` and `TodoistTask.section_id`, `parent_id`,
`is_deleted`, `added_at`, `user_id` are never accessed. -/

/-- TodoistDue (src/lib/types.ts). -/
structure TodoistDue where
  date : String
  datetime : Option String
  is_recurring : Option Bool
deriving DecidableEq

/-- TodoistTask (src/lib/types.ts). -/
structure TodoistTask where
  id : String
  content : String
  description : String
  project_id : String
  priority : Nat
  due : Option TodoistDue
  labels : List String
  checked : Bool
  completed_at : Option String
deriving DecidableEq

/-- TodoistWebhookPayload (src/lib/types.ts), the fields the handlers
destructure. -/
structure TodoistWebhookPayload where
  event_name : String
  user_id : String
  event_data : TodoistTask
deriving DecidableEq

/-! ## src/lib/capacities.ts (the unnamed source part) -/

/-- The JS `Array.prototype.join` with a newline separator. -/
def linesJoin : List String → String
  | [] => ""
  | [x] => x
  | x :: xs => x ++ "\n" ++ linesJoin xs

/-- The whitespace characters `String.prototype.trim` strips (the ASCII
ones; the repository's descriptions contain no exotic Unicode spaces). -/
def jsWsChar (c : Char) : Bool :=
  c = ' ' || c = '\t' || c = '\n' || c = '\r' ||
  c = Char.ofNat 11 || c = Char.ofNat 12

/-- The JS `String.prototype.trim`. -/
def jsTrim (s : String) : String :=
  ⟨((s.data.dropWhile jsWsChar).reverse.dropWhile jsWsChar).reverse⟩

/-- Split into lines at each newline character, as `split('\n')` does. -/
def splitNlAux : List Char → List Char → List String
  | [], acc => [⟨acc.reverse⟩]
  | '\n' :: rest, acc => (⟨acc.reverse⟩ : String) :: splitNlAux rest []
  | c :: rest, acc => splitNlAux rest (c :: acc)

/-- The JS `String.prototype.split` at newlines. -/
def jsSplitNewline (s : String) : List String := splitNlAux s.data []

/-- formatDateTime (src/lib/capacities.ts lines 127-142).  The source
wraps `new Date(isoString).toLocaleString('en-US', …)` in `try … catch \x7b
return isoString \x7d`; since `new Date` never throws and `toLocaleString`
on an invalid Date returns "Invalid Date" rather than throwing, the catch
branch is unreachable and an unparseable input yields "Invalid Date". -/
def formatDateTime (isoString : String) : String :=
  match jsDateParse isoString with
  | some t => jsLocaleLongEnUS t
  | none => "Invalid Date"

/-- formatTaskAsMarkdown (src/lib/capacities.ts lines 42-122).  The
`item:completed` and `item:deleted` switch cases return
`lines.join('\n') + '\n\n---\n'` early; the other cases fall through to
the metadata block and the final `'', '---', ''` pushes. -/
def formatTaskAsMarkdown (task : TodoistTask) (eventName : String) : String :=
  if eventName = "item:completed" then
    linesJoin (["### Task Completed", "", "~~" ++ task.content ++ "~~"] ++
      (match task.completed_at with
       | some ts =>
           if ts.isEmpty then []
           else ["", "- **Completed:** " ++ formatDateTime ts]
       | none => [])) ++ "\n\n---\n"
  else if eventName = "item:deleted" then
    linesJoin ["### Task Deleted", "", "~~" ++ task.content ++ "~~"] ++
      "\n\n---\n"
  else
    let headLines : List String :=
      if eventName = "item:added" then
        ["### New Task Added", "", "**" ++ task.content ++ "**"]
      else if eventName = "item:updated" then
        ["### Task Updated", "", "**" ++ task.content ++ "**"]
      else if eventName = "item:uncompleted" then
        ["### Task Reopened", "", "**" ++ task.content ++ "**"]
      else
        ["### Task Event: " ++ eventName, "", "**" ++ task.content ++ "**"]
    let prioLines : List String :=
      if task.priority > 1 then
        ["- **Priority:** " ++ getPriorityLabel task.priority]
      else []
    let dueLines : List String :=
      match task.due with
      | none => []
      | some due =>
          let dueStr :=
            match due.datetime with
            | some dt => if dt.isEmpty then due.date else formatDateTime dt
            | none => due.date
          let recurringNote :=
            if due.is_recurring = some true then " (recurring)" else ""
          ["- **Due:** " ++ dueStr ++ recurringNote]
    let labelLines : List String :=
      if task.labels.isEmpty then []
      else ["- **Labels:** " ++ String.intercalate ", " task.labels]
    let descLines : List String :=
      if (jsTrim task.description).isEmpty then []
      else ["", "> " ++ String.intercalate "\n> " (jsSplitNewline task.description)]
    linesJoin (headLines ++ [""] ++ prioLines ++ dueLines ++ labelLines ++
      descLines ++ ["", "---", ""])

/-- A `fetch` response as the code observes it: status and body text.
`ok` is true for statuses 200-299. -/
structure FetchResponse where
  status : Nat
  text : String
deriving DecidableEq

/-- Whether `response.ok` holds. -/
def FetchResponse.isOkStatus (r : FetchResponse) : Bool :=
  200 ≤ r.status && r.status ≤ 299

/-- The outbound JSON body of saveToDailyNote
(CapacitiesSaveToDailyNoteRequest with `noTimeStamp: false` set and
`origin` left undefined). -/
structure CapacitiesSaveBody where
  spaceId : String
  mdText : String
  noTimeStamp : Option Bool
  origin : Option String
deriving DecidableEq

/-- The outbound HTTP request saveToDailyNote makes. -/
structure CapacitiesCall where
  url : String
  method : String
  contentType : String
  authorization : String
  body : CapacitiesSaveBody
deriving DecidableEq

/-- The request saveToDailyNote (src/lib/capacities.ts lines 13-37)
sends: POST to the fixed endpoint, bearer token, JSON body with
`noTimeStamp: false`. -/
def saveToDailyNoteRequest (mdText apiToken spaceId : String) : CapacitiesCall :=
  { url := "https://api.capacities.io/save-to-daily-note"
    method := "POST"
    contentType := "application/json"
    authorization := "Bearer " ++ apiToken
    body := { spaceId := spaceId, mdText := mdText,
              noTimeStamp := some false, origin := none } }

/-- The outcome of saveToDailyNote given the upstream response: it
returns normally on an ok status and otherwise throws
`Error('Capacities API error <status>: <text>')`. -/
def saveToDailyNoteOutcome (response : FetchResponse) : Except String Unit :=
  if response.isOkStatus then .ok ()
  else .error ("Capacities API error " ++ toString response.status ++ ": " ++
    response.text)

/-- saveToDailyNote as a pure function of its arguments and the upstream
response: the request it sends and its outcome. -/
def saveToDailyNote (mdText apiToken spaceId : String)
    (response : FetchResponse) : CapacitiesCall × Except String Unit :=
  (saveToDailyNoteRequest mdText apiToken spaceId,
   saveToDailyNoteOutcome response)

/-! ## Decoding the webhook payload

`parseWebhookPayload` is `JSON.parse(body) as TodoistWebhookPayload` —
an unchecked cast.  The embedding decodes the parsed JSON into the typed
payload on the schema-conforming domain (string `event_name`, object
`event_data` with a string `content`, optional fields of the declared
types); absent optional fields take the defaults whose JS truthiness
behaviour coincides with `undefined` at every use site.  JSON values
outside this domain (where JS would propagate `undefined` or crash on
destructuring) are out of the modelled domain: the handlers below return
`none` there, and every theorem conditions on a successful decode. -/

/-- Read a string out of a JSON field lookup. -/
def jsonStr? : Option Json → Option String
  | some (.str s) => some s
  | _ => none

/-- Decode `TodoistDue` from JSON. -/
def decodeDue (j : Json) : Option TodoistDue :=
  match j with
  | .obj _ => do
      let date ← jsonStr? (jsonGet j "date")
      some { date := date
             datetime := jsonStr? (jsonGet j "datetime")
             is_recurring :=
               match jsonGet j "is_recurring" with
               | some (.bool b) => some b
               | _ => none }
  | _ => none

/-- Decode `TodoistTask` from JSON. -/
def decodeTask (j : Json) : Option TodoistTask :=
  match j with
  | .obj _ => do
      let content ← jsonStr? (jsonGet j "content")
      let due ← match jsonGet j "due" with
        | none => some none
        | some dj => (decodeDue dj).map some
      let labels ← match jsonGet j "labels" with
        | none => some []
        | some (.arr es) =>
            es.mapM (fun e => match e with | .str s => some s | _ => none)
        | some _ => none
      some { id := (jsonStr? (jsonGet j "id")).getD ""
             content := content
             description := (jsonStr? (jsonGet j "description")).getD ""
             project_id := (jsonStr? (jsonGet j "project_id")).getD ""
             priority :=
               match jsonGet j "priority" with
               | some (.num lexeme) => (readNatDigits lexeme.data).getD 1
               | _ => 1
             due := due
             labels := labels
             checked :=
               match jsonGet j "checked" with
               | some (.bool b) => b
               | _ => false
             completed_at := jsonStr? (jsonGet j "completed_at") }
  | _ => none

/-- Decode the webhook payload from JSON. -/
def decodePayload (j : Json) : Option TodoistWebhookPayload :=
  match j with
  | .obj _ => do
      let event_name ← jsonStr? (jsonGet j "event_name")
      let dataJson ← jsonGet j "event_data"
      let event_data ← decodeTask dataJson
      some { event_name := event_name
             user_id := (jsonStr? (jsonGet j "user_id")).getD ""
             event_data := event_data }
  | _ => none

/-- parseWebhookPayload (src/lib/todoist.ts): `JSON.parse` (throwing on a
syntax error, modelled by `none`) followed by the typed reading above. -/
def parseWebhookPayload (body : String) : Option TodoistWebhookPayload :=
  (jsonParse body).bind decodePayload

/-! ## src/api/webhook.ts — Node handler -/

/-- The shapes `req.body` can have when the handler runs: a string, a
Buffer (represented by its UTF-8 string content, which is all the code
reads of it), an already-parsed JSON object, or nothing parsed yet (the
raw stream, as its chunk strings). -/
inductive NodeBody where
  | str (s : String)
  | buf (s : String)
  | obj (j : Json)
  | stream (chunks : List String)

/-- getRawBody (src/api/webhook.ts lines 22-44): pass a string body
through, decode a Buffer, re-serialize a pre-parsed object with
`JSON.stringify` (the source comments "may differ from original"), and
otherwise concatenate the stream chunks. -/
def getRawBody : NodeBody → String
  | .str s => s
  | .buf s => s
  | .obj j => jsonStringify j
  | .stream chunks => String.join chunks

/-- The three environment variables the handlers read. -/
structure EnvVars where
  todoistClientSecret : Option String
  capacitiesApiToken : Option String
  capacitiesSpaceId : Option String

/-- An incoming request as the Node handler observes it. -/
structure NodeRequest where
  method : String
  headers : List (String × HeaderVal)
  body : NodeBody

/-- The Node handler's observable behaviour: HTTP status, JSON response
body, and the outbound Capacities calls made. -/
structure NodeResult where
  status : Nat
  body : Json
  outbound : List CapacitiesCall

/-- SUPPORTED_EVENTS (both handlers). -/
def SUPPORTED_EVENTS : List String :=
  ["item:added", "item:updated", "item:completed", "item:uncompleted",
   "item:deleted"]

/-- The default handler of src/api/webhook.ts (lines 46-112) as a pure
function of the environment, the request, and the upstream response the
Capacities endpoint would give (`none` models a transport error thrown by
`fetch`).  The result is `none` only outside the modelled payload domain
(see `decodePayload`). -/
def nodeHandler (env : EnvVars) (req : NodeRequest)
    (upstream : Option FetchResponse) : Option NodeResult :=
  if req.method ≠ "POST" then
    some ⟨405, .obj [("error", .str "Method not allowed")], []⟩
  else
    match env.todoistClientSecret, env.capacitiesApiToken,
        env.capacitiesSpaceId with
    | some clientSecret, some capacitiesToken, some spaceId =>
        if clientSecret.isEmpty || capacitiesToken.isEmpty ||
            spaceId.isEmpty then
          some ⟨500, .obj [("error", .str "Server configuration error")], []⟩
        else
          let rawBody := getRawBody req.body
          let signature := getSignatureFromHeaders req.headers
          if ¬ verifyTodoistSignature rawBody signature clientSecret then
            some ⟨401, .obj [("error", .str "Invalid signature")], []⟩
          else
            match jsonParse rawBody with
            | none => some ⟨400, .obj [("error", .str "Invalid payload")], []⟩
            | some payloadJson =>
                match decodePayload payloadJson with
                | none => none
                | some payload =>
                    if ¬ SUPPORTED_EVENTS.contains payload.event_name then
                      some ⟨200, .obj [("status", .str "ignored"),
                        ("event", .str payload.event_name)], []⟩
                    else
                      let markdown :=
                        formatTaskAsMarkdown payload.event_data
                          payload.event_name
                      let call :=
                        saveToDailyNoteRequest markdown capacitiesToken spaceId
                      match upstream with
                      | none =>
                          some ⟨500,
                            .obj [("error",
                              .str "Failed to save to Capacities")], [call]⟩
                      | some resp =>
                          match saveToDailyNoteOutcome resp with
                          | .ok _ =>
                              some ⟨200, .obj [("status", .str "ok"),
                                ("event", .str payload.event_name)], [call]⟩
                          | .error _ =>
                              some ⟨500,
                                .obj [("error",
                                  .str "Failed to save to Capacities")],
                                [call]⟩
    | _, _, _ =>
        some ⟨500, .obj [("error", .str "Server configuration error")], []⟩

/-! ## src/api/webhook.ts — Edge-runtime handler (second document) -/

/-- The Edge formatter's `new Date(completed_at).toLocaleString()`. -/
def edgeDateToLocaleString (s : String) : String :=
  match jsDateParse s with
  | some t => jsLocaleDefault t
  | none => "Invalid Date"

/-- The Edge getPriorityLabel: `labels[priority] || 'Normal'`. -/
def edgeGetPriorityLabel (priority : Nat) : String :=
  match priority with
  | 4 => "Urgent"
  | 3 => "High"
  | 2 => "Medium"
  | 1 => "Normal"
  | _ => "Normal"

/-- formatTaskMarkdown of the Edge handler (src/api/webhook.ts lines
174-202).  Unlike the library formatter it has no `item:uncompleted` or
`item:deleted` branch (both fall into the generic "Task Event:" case),
never early-returns, emits no blank line before the metadata block, and
skips the metadata block only for `item:completed`. -/
def edgeFormatTaskMarkdown (task : TodoistTask) (eventName : String) : String :=
  let headLines : List String :=
    if eventName = "item:completed" then
      ["### Task Completed", "", "~~" ++ task.content ++ "~~"] ++
        (match task.completed_at with
         | some ts =>
             if ts.isEmpty then []
             else ["", "- **Completed:** " ++ edgeDateToLocaleString ts]
         | none => [])
    else if eventName = "item:added" then
      ["### New Task Added", "", "**" ++ task.content ++ "**"]
    else if eventName = "item:updated" then
      ["### Task Updated", "", "**" ++ task.content ++ "**"]
    else
      ["### Task Event: " ++ eventName, "", "**" ++ task.content ++ "**"]
  let metaLines : List String :=
    if eventName ≠ "item:completed" then
      (if task.priority > 1 then
        ["- **Priority:** " ++ edgeGetPriorityLabel task.priority]
       else []) ++
      (match task.due with
       | none => []
       | some due =>
           let dueStr :=
             match due.datetime with
             | some dt => if dt.isEmpty then due.date else dt
             | none => due.date
           ["- **Due:** " ++ dueStr ++
             (if due.is_recurring = some true then " (recurring)" else "")]) ++
      (if task.labels.isEmpty then []
       else ["- **Labels:** " ++ String.intercalate ", " task.labels]) ++
      (if (jsTrim task.description).isEmpty then []
       else ["", "> " ++
         String.intercalate "\n> " (jsSplitNewline task.description)])
    else []
  linesJoin (headLines ++ metaLines ++ ["", "---", ""])

/-- An incoming request as the Edge handler observes it: `request.text()`
and `request.headers.get('x-todoist-hmac-sha256')` (`none` is `null`). -/
structure EdgeRequest where
  method : String
  sigHeader : Option String
  rawBody : String

/-- The outbound fetch the Edge handler makes (its JSON body carries only
`spaceId` and `mdText` — no `noTimeStamp`). -/
structure EdgeFetchCall where
  url : String
  method : String
  contentType : String
  authorization : String
  body : String
deriving DecidableEq

/-- The Edge handler's observable behaviour. -/
structure EdgeResult where
  status : Nat
  body : String
  outbound : List EdgeFetchCall
deriving DecidableEq

/-- The Edge default handler (src/api/webhook.ts lines 204-282).  The
signature verification result is computed into `isValidSig` but the
`401` early return is commented out in the source ("TEMPORARY: Skip
signature verification for debugging"), so the value is only logged and
the handler proceeds regardless. -/
def edgeHandler (env : EnvVars) (req : EdgeRequest)
    (upstream : Option FetchResponse) : Option EdgeResult :=
  if req.method ≠ "POST" then
    some ⟨405, jsonStringify (.obj [("error", .str "Method not allowed")]), []⟩
  else
    match env.todoistClientSecret, env.capacitiesApiToken,
        env.capacitiesSpaceId with
    | some clientSecret, some capacitiesToken, some spaceId =>
        if clientSecret.isEmpty || capacitiesToken.isEmpty ||
            spaceId.isEmpty then
          some ⟨500, jsonStringify (.obj [("error", .str "Server config error")]),
            []⟩
        else
          let rawBody := req.rawBody
          let signature := req.sigHeader
          let _isValidSig := edgeVerifySignature rawBody signature clientSecret
          match jsonParse rawBody with
          | none =>
              some ⟨400, jsonStringify (.obj [("error", .str "Invalid JSON")]),
                []⟩
          | some payloadJson =>
              match decodePayload payloadJson with
              | none => none
              | some payload =>
                  if ¬ SUPPORTED_EVENTS.contains payload.event_name then
                    some ⟨200, jsonStringify (.obj [("status", .str "ignored"),
                      ("event", .str payload.event_name)]), []⟩
                  else
                    let markdown :=
                      edgeFormatTaskMarkdown payload.event_data
                        payload.event_name
                    let call : EdgeFetchCall :=
                      { url := "https://api.capacities.io/save-to-daily-note"
                        method := "POST"
                        contentType := "application/json"
                        authorization := "Bearer " ++ capacitiesToken
                        body := jsonStringify (.obj [("spaceId", .str spaceId),
                          ("mdText", .str markdown)]) }
                    match upstream with
                    | none =>
                        some ⟨500, jsonStringify
                          (.obj [("error", .str "Failed to save")]), [call]⟩
                    | some resp =>
                        if ¬ resp.isOkStatus then
                          some ⟨500, jsonStringify
                            (.obj [("error", .str "Capacities API error"),
                              ("details", .str resp.text)]), [call]⟩
                        else
                          some ⟨200, jsonStringify
                            (.obj [("status", .str "ok"),
                              ("event", .str payload.event_name)]), [call]⟩
    | _, _, _ =>
        some ⟨500, jsonStringify (.obj [("error", .str "Server config error")]),
          []⟩

/-! ## String reasoning helpers -/

/-- Strings with the same character data are equal. -/
theorem strEqOfData (s t : String) (h : s.data = t.data) : s = t := by
  cases s; cases t; exact congrArg String.mk h

/-- Appending strings concatenates their character data. -/
theorem strDataAppend (s t : String) : (s ++ t).data = s.data ++ t.data := rfl

/-- String append is associative. -/
theorem strAppendAssoc (a b c : String) : a ++ b ++ c = a ++ (b ++ c) := by
  apply strEqOfData
  simp only [strDataAppend, List.append_assoc]

/-- Joining any nonempty line list followed by the `'', '---', ''` pushes
ends the string with a blank line, the separator and a final newline. -/
theorem linesJoin_trailer (xs : List String) (h : xs ≠ []) :
    ∃ p, linesJoin (xs ++ ["", "---", ""]) = p ++ "\n\n---\n" := by
  induction xs with
  | nil => exact absurd rfl h
  | cons x rest ih =>
      cases rest with
      | nil =>
          refine ⟨x, ?_⟩
          apply strEqOfData
          simp only [linesJoin, strDataAppend, List.append_assoc,
            List.cons_append, List.nil_append]
      | cons y t =>
          obtain ⟨p, hp⟩ := ih (by simp)
          refine ⟨x ++ "\n" ++ p, ?_⟩
          show x ++ "\n" ++ linesJoin ((y :: t) ++ ["", "---", ""]) = _
          rw [hp, strAppendAssoc, strAppendAssoc, strAppendAssoc]

/-! ## Claim C5 — the Deleted block -/

/-- C5 (amended): for every task, the library formatter renders kind
`item:deleted` as the "Task Deleted" heading, the struck-through title
and no metadata block — the whole block is exactly this string. -/
theorem c5_amended (task : TodoistTask) :
    formatTaskAsMarkdown task "item:deleted" =
      "### Task Deleted\n\n~~" ++ task.content ++ "~~\n\n---\n" := by
  have h0 : formatTaskAsMarkdown task "item:deleted" =
      linesJoin ["### Task Deleted", "", "~~" ++ task.content ++ "~~"] ++
        "\n\n---\n" := rfl
  rw [h0]
  apply strEqOfData
  simp only [linesJoin, strDataAppend, List.append_assoc, List.cons_append,
    List.nil_append]

/-- C5 (counterexample): the Edge duplicate formatter has no
`item:deleted` branch, so the claim fails on it: the heading is the
generic "Task Event:" one, the title is bold rather than struck through,
and the metadata block (priority, labels, description) is emitted. -/
theorem c5_counterexample :
    edgeFormatTaskMarkdown
        ⟨"1", "Buy milk", "desc", "1", 4, none, ["errand"], false, none⟩
        "item:deleted" =
      "### Task Event: item:deleted\n\n**Buy milk**\n- **Priority:** Urgent\n- **Labels:** errand\n\n> desc\n\n---\n" ∧
    (jsSplitNewline (edgeFormatTaskMarkdown
        ⟨"1", "Buy milk", "desc", "1", 4, none, ["errand"], false, none⟩
        "item:deleted")).head? =
      some "### Task Event: item:deleted" := by
  constructor
  · rfl
  · rfl

/-! ## Claim C6 — date formatting fallback -/

/-- C6 (bug evidence): `formatDateTime` on an unparseable input returns
"Invalid Date", not the original string — `new Date` never throws, so the
`catch \x7b return isoString \x7d` fallback the spec describes is dead
code. -/
theorem c6_invalid_date_not_raw :
    formatDateTime "not-a-date" = "Invalid Date" ∧
    formatDateTime "not-a-date" ≠ "not-a-date" := by
  constructor
  · rfl
  · decide

/-! ## Claim C7 — the Completed block carries no metadata -/

/-- C7: for every task (whatever its priority, due, labels and
description), both formatters render `item:completed` as exactly the
heading, the struck-through title and — when a completion timestamp is
present and nonempty — the completion line; no metadata lines appear. -/
theorem c7_completed_no_metadata (task : TodoistTask) :
    formatTaskAsMarkdown task "item:completed" =
      "### Task Completed\n\n~~" ++ task.content ++ "~~" ++
        (match task.completed_at with
         | some ts =>
             if ts.isEmpty then ""
             else "\n\n- **Completed:** " ++ formatDateTime ts
         | none => "") ++ "\n\n---\n" ∧
    edgeFormatTaskMarkdown task "item:completed" =
      "### Task Completed\n\n~~" ++ task.content ++ "~~" ++
        (match task.completed_at with
         | some ts =>
             if ts.isEmpty then ""
             else "\n\n- **Completed:** " ++ edgeDateToLocaleString ts
         | none => "") ++ "\n\n---\n" := by
  have h0 : formatTaskAsMarkdown task "item:completed" =
      linesJoin (["### Task Completed", "", "~~" ++ task.content ++ "~~"] ++
        (match task.completed_at with
         | some ts =>
             if ts.isEmpty then []
             else ["", "- **Completed:** " ++ formatDateTime ts]
         | none => [])) ++ "\n\n---\n" := rfl
  have e0 : edgeFormatTaskMarkdown task "item:completed" =
      linesJoin ((["### Task Completed", "", "~~" ++ task.content ++ "~~"] ++
        (match task.completed_at with
         | some ts =>
             if ts.isEmpty then []
             else ["", "- **Completed:** " ++ edgeDateToLocaleString ts]
         | none => [])) ++ [] ++ ["", "---", ""]) := rfl
  rw [h0, e0]
  cases task.completed_at with
  | none =>
      constructor
      · apply strEqOfData
        simp [linesJoin, strDataAppend, List.append_assoc]
      · apply strEqOfData
        simp [linesJoin, strDataAppend, List.append_assoc]
  | some ts =>
      cases hb : ts.isEmpty with
      | false =>
          constructor
          · apply strEqOfData
            simp [hb, linesJoin, strDataAppend, List.append_assoc]
          · apply strEqOfData
            simp [hb, linesJoin, strDataAppend, List.append_assoc]
      | true =>
          constructor
          · apply strEqOfData
            simp [hb, linesJoin, strDataAppend, List.append_assoc]
          · apply strEqOfData
            simp [hb, linesJoin, strDataAppend, List.append_assoc]

/-! ## Claim C8 — every block ends blank line, separator, blank line -/

/-- C8: for every task and every event kind string, the block either
formatter produces ends with the suffix `"\n\n---\n"` — read as lines:
a blank line, the `---` separator, and a trailing blank line. -/
theorem c8_blocks_end_with_trailer (task : TodoistTask) (eventName : String) :
    (∃ p, formatTaskAsMarkdown task eventName = p ++ "\n\n---\n") ∧
    (∃ p, edgeFormatTaskMarkdown task eventName = p ++ "\n\n---\n") := by
  constructor
  · rw [formatTaskAsMarkdown]
    split
    · exact ⟨_, rfl⟩
    · split
      · exact ⟨_, rfl⟩
      · apply linesJoin_trailer
        split <;> simp
  · rw [edgeFormatTaskMarkdown]
    apply linesJoin_trailer
    intro hc
    rw [List.append_eq_nil] at hc
    have hh := hc.1
    revert hh
    repeat' split
    all_goals simp

/-! ## Claim C10 — saveToDailyNote's request and outcome -/

/-- C10: saveToDailyNote always sends `noTimeStamp: false`; it returns
normally exactly on an ok upstream status, and otherwise throws an error
whose message is "Capacities API error <status>: <text>". -/
theorem c10_saveToDailyNote_contract (mdText apiToken spaceId : String)
    (resp : FetchResponse) :
    (saveToDailyNote mdText apiToken spaceId resp).1.body.noTimeStamp =
      some false ∧
    (resp.isOkStatus = true →
      (saveToDailyNote mdText apiToken spaceId resp).2 = .ok ()) ∧
    (resp.isOkStatus = false →
      (saveToDailyNote mdText apiToken spaceId resp).2 =
        .error ("Capacities API error " ++ toString resp.status ++ ": " ++
          resp.text)) := by
  refine ⟨rfl, ?_, ?_⟩
  · intro h
    simp [saveToDailyNote, saveToDailyNoteOutcome, h]
  · intro h
    simp [saveToDailyNote, saveToDailyNoteOutcome, h]

/-- C10 witness: a concrete 503 response produces exactly the documented
error, and the request body still carries `noTimeStamp: false`. -/
theorem c10_witness :
    (saveToDailyNote "md" "tok" "sp" ⟨503, "unavailable"⟩).1.body.noTimeStamp =
      some false ∧
    (saveToDailyNote "md" "tok" "sp" ⟨503, "unavailable"⟩).2 =
      .error "Capacities API error 503: unavailable" := by
  have h := c10_saveToDailyNote_contract "md" "tok" "sp" ⟨503, "unavailable"⟩
  exact ⟨h.1, h.2.2 rfl⟩

/-! ## Claim C4 — the bytes passed to signature verification -/

/-- Formalization of the claim's premise: the relation between the raw
wire bytes of a request and the `req.body` value the platform hands the
handler (a string or Buffer body carries the bytes themselves; a
pre-parsed body is the JSON parse of them; an unparsed body is the chunk
stream). -/
def WellFormedBody (raw : String) : NodeBody → Prop
  | .str s => s = raw
  | .buf s => s = raw
  | .obj j => jsonParse raw = some j
  | .stream chunks => String.join chunks = raw

/-- C4 (counterexample): when the platform has pre-parsed the body (the
`typeof req.body === 'object'` branch), getRawBody re-serializes the
parse, which differs from raw bytes containing insignificant whitespace —
so the handler does not always verify the exact wire bytes. -/
theorem c4_counterexample :
    WellFormedBody "\x7b \"a\": 1 \x7d" (.obj (.obj [("a", .num "1")])) ∧
    getRawBody (.obj (.obj [("a", .num "1")])) ≠ "\x7b \"a\": 1 \x7d" := by
  constructor
  · show jsonParse "\x7b \"a\": 1 \x7d" = some (.obj [("a", .num "1")])
    rfl
  · decide

/-- C4 (amended): for every request whose body is not the pre-parsed
object shape — a string, a Buffer, or the unread stream — getRawBody
returns exactly the raw received bytes, captured before any JSON
decoding. -/
theorem c4_amended (raw : String) (body : NodeBody)
    (hwf : WellFormedBody raw body) (hno : ∀ j, body ≠ NodeBody.obj j) :
    getRawBody body = raw := by
  cases body with
  | str s => exact hwf
  | buf s => exact hwf
  | obj j => exact absurd rfl (hno j)
  | stream chunks => exact hwf

/-- C4 witness: a string body passes through unchanged. -/
theorem c4_witness : getRawBody (.str "abc") = "abc" := by
  exact c4_amended "abc" (.str "abc") rfl (by intro j h; exact absurd h (by simp))

/-! ## Base64 round-trip and digest-shape lemmas -/

/-- The sextet stream the encoder's characters decode back to. -/
def sextetsOfBytes : List Nat → List Nat
  | [] => []
  | [b0] => [b0 / 4, b0 % 4 * 16]
  | [b0, b1] => [b0 / 4, b0 % 4 * 16 + b1 / 16, b1 % 16 * 4]
  | b0 :: b1 :: b2 :: rest =>
      b0 / 4 :: (b0 % 4 * 16 + b1 / 16) :: (b1 % 16 * 4 + b2 / 64) ::
      b2 % 64 :: sextetsOfBytes rest

/-- Every base64 alphabet character is distinct from the padding
character and decodes back to its sextet. -/
theorem b64_char_valid : ∀ n, n < 64 →
    b64CharOf n ≠ '=' ∧ b64SextetOf (b64CharOf n) = some n := by
  decide

/-- Scanning the encoder's output recovers exactly the sextet stream. -/
theorem b64TakeSextets_encode (bytes : List Nat) (h : ∀ b ∈ bytes, b < 256) :
    b64TakeSextets (b64EncodeTriples bytes) = sextetsOfBytes bytes := by
  induction bytes using b64EncodeTriples.induct with
  | case1 => rfl
  | case2 b0 =>
      have hb0 : b0 < 256 := h b0 (by simp)
      have h0 := b64_char_valid (b0 / 4) (by omega)
      have h1 := b64_char_valid (b0 % 4 * 16) (by omega)
      simp [b64EncodeTriples, b64TakeSextets, sextetsOfBytes,
        h0.1, h0.2, h1.1, h1.2]
  | case3 b0 b1 =>
      have hb0 : b0 < 256 := h b0 (by simp)
      have hb1 : b1 < 256 := h b1 (by simp)
      have h0 := b64_char_valid (b0 / 4) (by omega)
      have h1 := b64_char_valid (b0 % 4 * 16 + b1 / 16) (by omega)
      have h2 := b64_char_valid (b1 % 16 * 4) (by omega)
      simp [b64EncodeTriples, b64TakeSextets, sextetsOfBytes,
        h0.1, h0.2, h1.1, h1.2, h2.1, h2.2]
  | case4 b0 b1 b2 rest ih =>
      have hb0 : b0 < 256 := h b0 (by simp)
      have hb1 : b1 < 256 := h b1 (by simp)
      have hb2 : b2 < 256 := h b2 (by simp)
      have h0 := b64_char_valid (b0 / 4) (by omega)
      have h1 := b64_char_valid (b0 % 4 * 16 + b1 / 16) (by omega)
      have h2 := b64_char_valid (b1 % 16 * 4 + b2 / 64) (by omega)
      have h3 := b64_char_valid (b2 % 64) (by omega)
      have ih2 := ih (fun b hb => h b (by simp [hb]))
      simp [b64EncodeTriples, b64TakeSextets, sextetsOfBytes,
        h0.1, h0.2, h1.1, h1.2, h2.1, h2.2, h3.1, h3.2, ih2]

/-- Regrouping the sextet stream recovers the original bytes. -/
theorem b64Regroup_sextets (bytes : List Nat) (h : ∀ b ∈ bytes, b < 256) :
    b64Regroup (sextetsOfBytes bytes) = bytes := by
  induction bytes using sextetsOfBytes.induct with
  | case1 => rfl
  | case2 b0 =>
      have hb0 : b0 < 256 := h b0 (by simp)
      simp [sextetsOfBytes, b64Regroup]
      omega
  | case3 b0 b1 =>
      have hb0 : b0 < 256 := h b0 (by simp)
      have hb1 : b1 < 256 := h b1 (by simp)
      simp [sextetsOfBytes, b64Regroup]
      constructor <;> omega
  | case4 b0 b1 b2 rest ih =>
      have hb0 : b0 < 256 := h b0 (by simp)
      have hb1 : b1 < 256 := h b1 (by simp)
      have hb2 : b2 < 256 := h b2 (by simp)
      have ih2 := ih (fun b hb => h b (by simp [hb]))
      simp [sextetsOfBytes, b64Regroup, ih2]
      refine ⟨by omega, by omega, by omega⟩

/-- Node's lenient decoding inverts the standard encoding on byte lists. -/
theorem nodeBase64Decode_encode (bytes : List Nat) (h : ∀ b ∈ bytes, b < 256) :
    nodeBase64Decode (base64Encode bytes) = bytes := by
  show b64Regroup (b64TakeSextets (b64EncodeTriples bytes)) = bytes
  rw [b64TakeSextets_encode bytes h, b64Regroup_sextets bytes h]

/-- Each rendered word byte is an actual byte. -/
theorem wordBytes_lt (w : Nat) : ∀ b ∈ wordBytes w, b < 256 := by
  intro b hb
  simp [wordBytes] at hb
  rcases hb with rfl | rfl | rfl | rfl <;> omega

/-- Digest bytes are bytes. -/
theorem digestBytes_lt (st : Sha8) : ∀ b ∈ digestBytes st, b < 256 := by
  intro b hb
  simp only [digestBytes, List.mem_append] at hb
  rcases hb with ((((((h | h) | h) | h) | h) | h) | h) | h <;>
    exact wordBytes_lt _ b h

/-- A digest is 32 bytes long. -/
theorem digestBytes_length (st : Sha8) : (digestBytes st).length = 32 := by
  simp [digestBytes, wordBytes]

/-- SHA-256 output bytes are bytes. -/
theorem sha256_lt (msg : List Nat) : ∀ b ∈ sha256 msg, b < 256 := by
  intro b hb
  exact digestBytes_lt _ b hb

/-- SHA-256 output is 32 bytes. -/
theorem sha256_length (msg : List Nat) : (sha256 msg).length = 32 :=
  digestBytes_length _

/-- HMAC-SHA256 output bytes are bytes. -/
theorem hmacSha256_lt (key msg : List Nat) : ∀ b ∈ hmacSha256 key msg, b < 256 := by
  intro b hb
  exact sha256_lt _ b hb

/-- HMAC-SHA256 output is 32 bytes. -/
theorem hmacSha256_length (key msg : List Nat) :
    (hmacSha256 key msg).length = 32 :=
  sha256_length _

/-- Encoding a nonempty byte list never gives the empty string. -/
theorem base64Encode_ne_empty (bytes : List Nat) (h : bytes ≠ []) :
    base64Encode bytes ≠ "" := by
  intro hc
  have hd := congrArg String.data hc
  rcases bytes with _ | ⟨b0, _ | ⟨b1, _ | ⟨b2, rest⟩⟩⟩
  · exact h rfl
  · simp [base64Encode, b64EncodeTriples] at hd
  · simp [base64Encode, b64EncodeTriples] at hd
  · simp [base64Encode, b64EncodeTriples] at hd

/-- A string that is not the empty string has `isEmpty = false`. -/
theorem isEmpty_false_of_ne (s : String) (h : s ≠ "") : s.isEmpty = false := by
  cases hi : s.isEmpty with
  | false => rfl
  | true => exact absurd ((String.isEmpty_iff s).mp hi) h

/-! ## Characterizing the signature verifier -/

/-- The `try` block of verifyTodoistSignature always returns normally,
with exactly the comparison of the decoded provided signature against the
expected digest. -/
theorem verifyTryBlock_eq (rawBody s clientSecret : String) :
    verifyTryBlock rawBody s clientSecret =
      .ok (decide (nodeBase64Decode s =
        hmacSha256 (utf8Encode clientSecret) (utf8Encode rawBody))) := by
  have hd : nodeBase64Decode (base64Encode
      (hmacSha256 (utf8Encode clientSecret) (utf8Encode rawBody))) =
      hmacSha256 (utf8Encode clientSecret) (utf8Encode rawBody) :=
    nodeBase64Decode_encode _ (hmacSha256_lt _ _)
  have h0 : verifyTryBlock rawBody s clientSecret =
      (if (nodeBase64Decode s).length ≠
          (nodeBase64Decode (base64Encode (hmacSha256 (utf8Encode clientSecret)
            (utf8Encode rawBody)))).length then Except.ok false
       else timingSafeEqualE (nodeBase64Decode s)
         (nodeBase64Decode (base64Encode (hmacSha256 (utf8Encode clientSecret)
           (utf8Encode rawBody))))) := rfl
  rw [h0, hd]
  by_cases hl : (nodeBase64Decode s).length =
      (hmacSha256 (utf8Encode clientSecret) (utf8Encode rawBody)).length
  · rw [if_neg (not_not_intro hl), timingSafeEqualE, if_pos hl]
    by_cases he : nodeBase64Decode s =
        hmacSha256 (utf8Encode clientSecret) (utf8Encode rawBody)
    · simp [he]
    · simp [he]
  · rw [if_pos hl]
    have hne : nodeBase64Decode s ≠
        hmacSha256 (utf8Encode clientSecret) (utf8Encode rawBody) :=
      fun he => hl (by rw [he])
    simp [hne]

/-- The verifier accepts exactly the nonempty signature strings whose
lenient base64 decoding equals the expected HMAC digest of the body. -/
theorem verifyTodoistSignature_iff (rawBody clientSecret : String)
    (signature : Option String) :
    verifyTodoistSignature rawBody signature clientSecret = true ↔
      ∃ s, signature = some s ∧ s ≠ "" ∧
        nodeBase64Decode s =
          hmacSha256 (utf8Encode clientSecret) (utf8Encode rawBody) := by
  cases signature with
  | none => simp [verifyTodoistSignature]
  | some s =>
      cases he : s.isEmpty with
      | true =>
          have hs : s = "" := (String.isEmpty_iff s).mp he
          subst hs
          constructor
          · intro hx
            exact Bool.noConfusion (show false = true from hx)
          · rintro ⟨s2, hs2, hne, _⟩
            cases Option.some_inj.mp hs2
            exact absurd rfl hne
      | false =>
          have hne : s ≠ "" := by
            intro hx
            rw [hx] at he
            exact absurd he (by decide)
          simp [verifyTodoistSignature, he, verifyTryBlock_eq, hne]

/-! ## Claim C2 — signing then verifying; mutation sensitivity -/

/-- C2 (amended): verifying a body against the base64 HMAC-SHA256 digest
of that body always succeeds; in general the verifier accepts a provided
signature exactly when it is nonempty and its lenient base64 decoding
equals the digest of the received body — so a mutated body or signature
is rejected precisely when it changes that comparison, and nothing
stronger holds (see the counterexample for a single-bit signature
mutation that is still accepted). -/
theorem c2_amended :
    (∀ B S : String, verifyTodoistSignature B
        (some (base64Encode (hmacSha256 (utf8Encode S) (utf8Encode B)))) S =
        true) ∧
    (∀ B S s : String, verifyTodoistSignature B (some s) S = true ↔
      (s ≠ "" ∧ nodeBase64Decode s =
        hmacSha256 (utf8Encode S) (utf8Encode B))) := by
  have hiff : ∀ B S s : String,
      verifyTodoistSignature B (some s) S = true ↔
        (s ≠ "" ∧ nodeBase64Decode s =
          hmacSha256 (utf8Encode S) (utf8Encode B)) := by
    intro B S s
    rw [verifyTodoistSignature_iff]
    constructor
    · rintro ⟨s2, hs2, hne, hdec⟩
      cases Option.some_inj.mp hs2
      exact ⟨hne, hdec⟩
    · rintro ⟨hne, hdec⟩
      exact ⟨s, rfl, hne, hdec⟩
  refine ⟨?_, hiff⟩
  intro B S
  rw [hiff]
  have hlen := hmacSha256_length (utf8Encode S) (utf8Encode B)
  refine ⟨base64Encode_ne_empty _ ?_, nodeBase64Decode_encode _ (hmacSha256_lt _ _)⟩
  intro hnil
  rw [hnil] at hlen
  exact absurd hlen (by decide)

/-- Number of set bits in one byte. -/
def popcount8 (n : Nat) : Nat :=
  n % 2 + n / 2 % 2 + n / 4 % 2 + n / 8 % 2 + n / 16 % 2 + n / 32 % 2 +
  n / 64 % 2 + n / 128 % 2

/-- Hamming distance in bits between two equal-length byte lists. -/
def bitDistance (a b : List Nat) : Nat :=
  ((a.zip b).map (fun p => popcount8 (p.1 ^^^ p.2))).sum

/-- C2 (counterexample): for body "x" and secret "s" the correct
signature ends in "jA="; flipping one bit of its 43rd character gives
"jC=" — a different string one bit away — yet verification still accepts
it, because Node's base64 decoding discards the two padding bits that
character contributes.  So "any single-bit mutation of the signature is
rejected" is false. -/
theorem c2_counterexample :
    base64Encode (hmacSha256 (utf8Encode "s") (utf8Encode "x")) =
      "zvsQXuIplvsWftYGR40pMbh6o6uZtLBLaMT8Fsi0mjA=" ∧
    "zvsQXuIplvsWftYGR40pMbh6o6uZtLBLaMT8Fsi0mjC=" ≠
      "zvsQXuIplvsWftYGR40pMbh6o6uZtLBLaMT8Fsi0mjA=" ∧
    (utf8Encode "zvsQXuIplvsWftYGR40pMbh6o6uZtLBLaMT8Fsi0mjC=").length =
      (utf8Encode "zvsQXuIplvsWftYGR40pMbh6o6uZtLBLaMT8Fsi0mjA=").length ∧
    bitDistance (utf8Encode "zvsQXuIplvsWftYGR40pMbh6o6uZtLBLaMT8Fsi0mjC=")
      (utf8Encode "zvsQXuIplvsWftYGR40pMbh6o6uZtLBLaMT8Fsi0mjA=") = 1 ∧
    verifyTodoistSignature "x"
      (some "zvsQXuIplvsWftYGR40pMbh6o6uZtLBLaMT8Fsi0mjC=") "s" = true := by
  refine ⟨by decide, by decide, by decide, by decide, by decide⟩

/-! ## Claim C3 — totality and rejection cases of the verifier -/

/-- Formalization of the claim's "valid base64" notion (RFC 4648 §4,
standard alphabet, correct `=` padding in a final group). -/
def isB64StdChar (c : Char) : Bool :=
  ('A' ≤ c && c ≤ 'Z') || ('a' ≤ c && c ≤ 'z') || ('0' ≤ c && c ≤ '9') ||
  c = '+' || c = '/'

/-- Whether a character list is a sequence of valid base64 quartets. -/
def validB64Groups : List Char → Bool
  | [] => true
  | [c1, c2, '=', '='] => isB64StdChar c1 && isB64StdChar c2
  | [c1, c2, c3, '='] => isB64StdChar c1 && isB64StdChar c2 && isB64StdChar c3
  | c1 :: c2 :: c3 :: c4 :: rest =>
      isB64StdChar c1 && isB64StdChar c2 && isB64StdChar c3 &&
      isB64StdChar c4 && validB64Groups rest
  | _ => false

/-- Whether a string is valid base64 in the claim's sense. -/
def specValidBase64 (s : String) : Bool := validB64Groups s.data

/-- C3 (counterexample): a signature that is not valid base64 — the
correct signature with a stray `!` prepended — is still accepted, because
Node's `Buffer.from(s, 'base64')` never fails and skips characters
outside the alphabet.  So "verify returns false when the signature is not
valid base64" is false (though verify still never throws). -/
theorem c3_counterexample :
    specValidBase64 "!zvsQXuIplvsWftYGR40pMbh6o6uZtLBLaMT8Fsi0mjA=" = false ∧
    verifyTodoistSignature "x"
      (some "!zvsQXuIplvsWftYGR40pMbh6o6uZtLBLaMT8Fsi0mjA=") "s" = true := by
  exact ⟨by decide, by decide⟩

/-- C3 (amended): verify is total and never throws to its caller — the
`try` block always returns normally; it returns false when the signature
header is absent or empty and when the decoded signature's length differs
from the decoded expected digest's length.  (A non-base64 signature is
not always rejected: lenient decoding can still produce the expected
digest bytes — see the counterexample.) -/
theorem c3_amended (raw secret : String) :
    verifyTodoistSignature raw none secret = false ∧
    verifyTodoistSignature raw (some "") secret = false ∧
    (∀ s : String, (nodeBase64Decode s).length ≠
        (nodeBase64Decode (base64Encode (hmacSha256 (utf8Encode secret)
          (utf8Encode raw)))).length →
      verifyTodoistSignature raw (some s) secret = false) ∧
    (∀ s : String, ∃ b, verifyTryBlock raw s secret = Except.ok b) := by
  refine ⟨rfl, rfl, ?_, fun s => ⟨_, verifyTryBlock_eq raw s secret⟩⟩
  intro s hlen
  rw [nodeBase64Decode_encode _ (hmacSha256_lt _ _)] at hlen
  have hne : nodeBase64Decode s ≠
      hmacSha256 (utf8Encode secret) (utf8Encode raw) :=
    fun he => hlen (by rw [he])
  cases hs : verifyTodoistSignature raw (some s) secret with
  | false => rfl
  | true =>
      obtain ⟨s2, hs2, hne2, hdec⟩ :=
        (verifyTodoistSignature_iff raw secret (some s)).mp hs
      cases Option.some_inj.mp hs2
      exact absurd hdec hne

/-- C3 witness: a concrete mismatched-length signature ("QQ==" decodes to
one byte, the expected digest to 32 bytes) is rejected. -/
theorem c3_witness : verifyTodoistSignature "b" (some "QQ==") "s" = false :=
  (c3_amended "b" "s").2.2.1 "QQ==" (by decide)

/-! ## Claim C9 — unsupported events are acknowledged and ignored -/

/-- C9: for every authenticated, well-formed request whose event kind is
outside the supported set, both handlers answer 200 with the
ignored-status body echoing the event kind, and make no outbound call. -/
theorem c9_unsupported_ignored
    (cs ct sid : String) (hcs : cs ≠ "") (hct : ct ≠ "") (hsid : sid ≠ "")
    (req : NodeRequest) (hm : req.method = "POST")
    (hsig : verifyTodoistSignature (getRawBody req.body)
      (getSignatureFromHeaders req.headers) cs = true)
    (payload : TodoistWebhookPayload)
    (hp : parseWebhookPayload (getRawBody req.body) = some payload)
    (hev : payload.event_name ∉ SUPPORTED_EVENTS)
    (upstream : Option FetchResponse)
    (ereq : EdgeRequest) (hem : ereq.method = "POST")
    (hesig : edgeVerifySignature ereq.rawBody ereq.sigHeader cs = true)
    (epayload : TodoistWebhookPayload)
    (hep : parseWebhookPayload ereq.rawBody = some epayload)
    (heev : epayload.event_name ∉ SUPPORTED_EVENTS) :
    nodeHandler ⟨some cs, some ct, some sid⟩ req upstream =
      some ⟨200, .obj [("status", .str "ignored"),
        ("event", .str payload.event_name)], []⟩ ∧
    edgeHandler ⟨some cs, some ct, some sid⟩ ereq upstream =
      some ⟨200, jsonStringify (.obj [("status", .str "ignored"),
        ("event", .str epayload.event_name)]), []⟩ := by
  have hc1 : cs.isEmpty = false := isEmpty_false_of_ne _ hcs
  have hc2 : ct.isEmpty = false := isEmpty_false_of_ne _ hct
  have hc3 : sid.isEmpty = false := isEmpty_false_of_ne _ hsid
  obtain ⟨j, hj, hdec⟩ := Option.bind_eq_some.mp hp
  obtain ⟨ej, hej, hedec⟩ := Option.bind_eq_some.mp hep
  have hcont : SUPPORTED_EVENTS.contains payload.event_name = false := by
    rw [Bool.eq_false_iff]
    intro hx
    exact hev (List.elem_iff.mp hx)
  have hecont : SUPPORTED_EVENTS.contains epayload.event_name = false := by
    rw [Bool.eq_false_iff]
    intro hx
    exact heev (List.elem_iff.mp hx)
  constructor
  · simp [nodeHandler, hm, hc1, hc2, hc3, hsig, hj, hdec, hcont, hev]
  · simp [edgeHandler, hem, hc1, hc2, hc3, hej, hedec, hecont, heev]

/-- C9 witness: a POST carrying kind `item:archived` with a valid
signature is acknowledged with the ignored body by both handlers, and
neither records an outbound call. -/
theorem c9_witness :
    nodeHandler ⟨some "s", some "tok", some "space"⟩
      ⟨"POST",
       [("x-todoist-hmac-sha256",
         .hstr "HCPhkklAJdSVXn3Kc0dRn8Cii3XTEQ+scEKjalUJYN0=")],
       .str "\x7b\"event_name\":\"item:archived\",\"user_id\":\"1\",\"event_data\":\x7b\"id\":\"1\",\"content\":\"Buy milk\",\"description\":\"\",\"project_id\":\"1\",\"priority\":1,\"labels\":[],\"checked\":false\x7d\x7d"⟩
      none =
      some ⟨200, .obj [("status", .str "ignored"),
        ("event", .str "item:archived")], []⟩ ∧
    edgeHandler ⟨some "s", some "tok", some "space"⟩
      ⟨"POST", some "HCPhkklAJdSVXn3Kc0dRn8Cii3XTEQ+scEKjalUJYN0=",
       "\x7b\"event_name\":\"item:archived\",\"user_id\":\"1\",\"event_data\":\x7b\"id\":\"1\",\"content\":\"Buy milk\",\"description\":\"\",\"project_id\":\"1\",\"priority\":1,\"labels\":[],\"checked\":false\x7d\x7d"⟩
      none =
      some ⟨200, jsonStringify (.obj [("status", .str "ignored"),
        ("event", .str "item:archived")]), []⟩ := by
  exact c9_unsupported_ignored "s" "tok" "space" (by decide) (by decide)
    (by decide)
    ⟨"POST",
     [("x-todoist-hmac-sha256",
       .hstr "HCPhkklAJdSVXn3Kc0dRn8Cii3XTEQ+scEKjalUJYN0=")],
     .str "\x7b\"event_name\":\"item:archived\",\"user_id\":\"1\",\"event_data\":\x7b\"id\":\"1\",\"content\":\"Buy milk\",\"description\":\"\",\"project_id\":\"1\",\"priority\":1,\"labels\":[],\"checked\":false\x7d\x7d"⟩
    rfl (by decide)
    ⟨"item:archived", "1", ⟨"1", "Buy milk", "", "1", 1, none, [], false, none⟩⟩
    (by decide) (by decide) none
    ⟨"POST", some "HCPhkklAJdSVXn3Kc0dRn8Cii3XTEQ+scEKjalUJYN0=",
     "\x7b\"event_name\":\"item:archived\",\"user_id\":\"1\",\"event_data\":\x7b\"id\":\"1\",\"content\":\"Buy milk\",\"description\":\"\",\"project_id\":\"1\",\"priority\":1,\"labels\":[],\"checked\":false\x7d\x7d"⟩
    rfl (by decide)
    ⟨"item:archived", "1", ⟨"1", "Buy milk", "", "1", 1, none, [], false, none⟩⟩
    (by decide) (by decide)

/-! ## Claim C1 — signature enforcement at each entry point -/

/-- C1 (bug evidence): on a POST with an *invalid* signature over a
supported event, the Node handler does return 401 with no outbound call;
but the Edge handler — whose 401 return is commented out in the source —
computes the failed verification, ignores it, processes the event, and
makes the outbound call, answering 200.  Signature verification is
therefore not enforced at every entry point. -/
theorem c1_edge_bypass :
    edgeVerifySignature
      "\x7b\"event_name\":\"item:added\",\"user_id\":\"1\",\"event_data\":\x7b\"id\":\"1\",\"content\":\"Buy milk\",\"description\":\"\",\"project_id\":\"1\",\"priority\":4,\"labels\":[\"errand\"],\"checked\":false\x7d\x7d"
      (some "wrong-signature") "s" = false ∧
    verifyTodoistSignature
      "\x7b\"event_name\":\"item:added\",\"user_id\":\"1\",\"event_data\":\x7b\"id\":\"1\",\"content\":\"Buy milk\",\"description\":\"\",\"project_id\":\"1\",\"priority\":4,\"labels\":[\"errand\"],\"checked\":false\x7d\x7d"
      (some "wrong-signature") "s" = false ∧
    nodeHandler ⟨some "s", some "tok", some "space"⟩
      ⟨"POST", [("x-todoist-hmac-sha256", .hstr "wrong-signature")],
       .str "\x7b\"event_name\":\"item:added\",\"user_id\":\"1\",\"event_data\":\x7b\"id\":\"1\",\"content\":\"Buy milk\",\"description\":\"\",\"project_id\":\"1\",\"priority\":4,\"labels\":[\"errand\"],\"checked\":false\x7d\x7d"⟩
      (some ⟨200, "ok"⟩) =
      some ⟨401, .obj [("error", .str "Invalid signature")], []⟩ ∧
    (edgeHandler ⟨some "s", some "tok", some "space"⟩
      ⟨"POST", some "wrong-signature",
       "\x7b\"event_name\":\"item:added\",\"user_id\":\"1\",\"event_data\":\x7b\"id\":\"1\",\"content\":\"Buy milk\",\"description\":\"\",\"project_id\":\"1\",\"priority\":4,\"labels\":[\"errand\"],\"checked\":false\x7d\x7d"⟩
      (some ⟨200, "ok"⟩)).map (fun r => (r.status, r.outbound.length)) =
      some (200, 1) := by
  exact ⟨by decide, by decide, by rfl, by rfl⟩

end TCW
